import Mathlib

/-
Verification of the folder-comparison engine (scripts/folder_compare.py).

Paths are modelled as lists of components (`List String`).  File bytes are
modelled as `List Nat`.  The MD5 accumulator is modelled by the exact byte
sequence fed into it: two digests are equal exactly when the fed byte
sequences are equal, which is the determinism property the program relies on.
The sentinel digest `""` that `calculate_file_hash` returns for a non-regular
path is modelled by `Option.none`; a real digest of fed bytes `bs` is
`some bs`.
-/

namespace FolderCompare

/-- A filesystem path, as a list of components. -/
abbrev FPath := List String

/-- A digest value: `none` models the empty-string sentinel returned for a
non-regular path, `some bs` models the MD5 hex digest of the fed bytes `bs`. -/
abbrev Digest := Option (List Nat)

/-- The `(size, quick_hash)` pair stored per file by `get_files_info`. -/
structure Fingerprint where
  size : Nat
  digest : Digest
deriving DecidableEq

/-- The `files_info` dictionary built by `get_files_info`: an association list
from relative path to fingerprint, in insertion order. -/
abbrev Snapshot := List (FPath × Fingerprint)

/-- The chunk size default of `calculate_file_hash`. -/
def chunk_default : Nat := 8192

/-- Mirrors `calculate_file_hash(file_path, chunk_size)`: for a non-regular
path (`none`) it returns the empty digest; otherwise it feeds the first
`chunk_size` bytes, and, when the file is larger than `chunk_size`, also the
last `chunk_size` bytes (obtained by seeking to `size - chunk_size`). -/
def calculate_file_hash (file : Option (List Nat)) (chunk_size : Nat) : Digest :=
  match file with
  | Option.none => Option.none
  | some content =>
    some (if content.length > chunk_size then
            content.take chunk_size ++ content.drop (content.length - chunk_size)
          else
            content.take chunk_size)

/-- The state of a path at the moment `calculate_file_hash` runs on it:
either it is not (or no longer) a regular file, or it is a regular file that
vanishes between the `is_file` check and the `open`/`stat` call, or it is a
readable regular file with the given bytes. -/
inductive PathState
  | notAFile
  | vanishesAfterCheck (content : List Nat)
  | readable (content : List Nat)
deriving DecidableEq

/-- Errors raised by filesystem primitives. -/
inductive FsError
  | fileNotFound
  | ioErr
deriving DecidableEq

/-- Mirrors a run of `calculate_file_hash` including its fallible filesystem
accesses: `if not file_path.is_file(): return ""`; then `stat`/`open`, whose
failure propagates as an exception; otherwise the chunk digest is computed. -/
def calculate_file_hash_run (st : PathState) (chunk_size : Nat) : Except FsError Digest :=
  match st with
  | PathState.notAFile => Except.ok (calculate_file_hash Option.none chunk_size)
  | PathState.vanishesAfterCheck _ => Except.error FsError.ioErr
  | PathState.readable c => Except.ok (calculate_file_hash (some c) chunk_size)

/-- What happens to one enumerated directory entry during the scan loop of
`get_files_info`: it stays present; or it is gone by the time of the outer
`is_file` check; or it vanishes between that check and `stat()`; or it
vanishes between `stat()` and the `is_file` check inside
`calculate_file_hash`; or it vanishes between that inner check and `open`. -/
inductive Fate
  | present
  | goneAtCheck
  | goneAtStat
  | goneAtHash
  | goneInHash
deriving DecidableEq

/-- One entry yielded by `directory.rglob`, with its relative path, its byte
content, and its fate during the scan. -/
structure Entry where
  rel : FPath
  content : List Nat
  fate : Fate
deriving DecidableEq

/-- The path state seen by `calculate_file_hash` for an entry that passed the
outer `is_file` check and `stat()`. -/
def entryHashState (e : Entry) : PathState :=
  match e.fate with
  | Fate.goneAtHash => PathState.notAFile
  | Fate.goneInHash => PathState.vanishesAfterCheck e.content
  | _ => PathState.readable e.content

/-- The scan loop of `get_files_info`: for each enumerated entry, skip it when
the `is_file` check fails, abort with the raised error when `stat()` or the
hash's `open` raises, and otherwise record `(rel_path, (size, quick_hash))`.
There is no exception handling inside `get_files_info`. -/
def get_files_info_go : List Entry → Snapshot → Except FsError Snapshot
  | [], acc => Except.ok acc
  | e :: rest, acc =>
    match e.fate with
    | Fate.goneAtCheck => get_files_info_go rest acc
    | Fate.goneAtStat => Except.error FsError.fileNotFound
    | _ =>
      match calculate_file_hash_run (entryHashState e) chunk_default with
      | Except.error msg => Except.error msg
      | Except.ok d => get_files_info_go rest (acc ++ [(e.rel, ⟨e.content.length, d⟩)])

/-- Mirrors `get_files_info(directory)` on the list of enumerated entries. -/
def get_files_info (entries : List Entry) : Except FsError Snapshot :=
  get_files_info_go entries []

/-- The key set of a snapshot, mirroring `set(files_info.keys())`. -/
def snapshotKeys (s : Snapshot) : Finset FPath :=
  (s.map Prod.fst).toFinset

/-- Dictionary lookup `files_info[filename]` (keys are unique in a dict; this
returns the first binding). -/
def lookupSnap : Snapshot → FPath → Option Fingerprint
  | [], _ => Option.none
  | (k, v) :: rest, key => if k = key then some v else lookupSnap rest key

/-- Mirrors `missing_files = source_filenames - target_filenames`. -/
def missing_files (source_files target_files : Snapshot) : Finset FPath :=
  snapshotKeys source_files \ snapshotKeys target_files

/-- Mirrors `extra_files = target_filenames - source_filenames`. -/
def extra_files (source_files target_files : Snapshot) : Finset FPath :=
  snapshotKeys target_files \ snapshotKeys source_files

/-- Mirrors `common_files = source_filenames & target_filenames`. -/
def common_files (source_files target_files : Snapshot) : Finset FPath :=
  snapshotKeys source_files ∩ snapshotKeys target_files

/-- A concrete enumeration of the common-path set, used to iterate
`for filename in common_files` (Python set iteration order is unspecified;
this is one enumeration of it). -/
def commonList (source_files target_files : Snapshot) : List FPath :=
  ((source_files.map Prod.fst).filter
    (fun k => decide (k ∈ target_files.map Prod.fst))).dedup

/-- Mirrors the `content_mismatches` loop of `compare_folders`: empty unless
`check_content`; otherwise each common filename whose stored
`(size, quick_hash)` pairs are unequal is added to the set. -/
def content_mismatches (source_files target_files : Snapshot)
    (check_content : Bool) : Finset FPath :=
  if check_content then
    (commonList source_files target_files).foldl
      (fun acc filename =>
        if lookupSnap source_files filename ≠ lookupSnap target_files filename then
          insert filename acc
        else acc) ∅
  else ∅

/-- The reconciliation action of the `--action` option. -/
inductive Action
  | none
  | move
  | delete
deriving DecidableEq

/-- A filesystem: the set of regular-file paths and the set of directory
paths. -/
structure FS where
  files : Finset FPath
  dirs : Finset FPath
deriving DecidableEq

/-- Observable events emitted while handling unpaired files: the `Confirm.ask`
prompt of the delete action, each logged move, each logged delete, and the
single `logger.error` of the surrounding exception handler. -/
inductive Event
  | confirmAsked
  | moved (src dst : FPath)
  | deleted (p : FPath)
  | errorLogged
deriving DecidableEq

/-- Mirrors `src.exists()`. -/
def pathExists (fs : FS) (p : FPath) : Bool :=
  decide (p ∈ fs.files) || decide (p ∈ fs.dirs)

/-- Mirrors `shutil.move(src, dst)` for a regular file (an existing `dst` is
overwritten, the platform's accepted-limitation semantics). -/
def moveFile (fs : FS) (src dst : FPath) : FS :=
  ⟨insert dst (fs.files.erase src), fs.dirs⟩

/-- Mirrors `src.unlink()`. -/
def unlinkFile (fs : FS) (p : FPath) : FS :=
  ⟨fs.files.erase p, fs.dirs⟩

/-- Mirrors `p.mkdir(parents=True, exist_ok=True)`: the directory and all of
its ancestors come to exist; pre-existing ones are not an error. -/
def mkdirParents (fs : FS) (p : FPath) : FS :=
  ⟨fs.files, fs.dirs ∪ (p.inits.filter (fun q => decide (q ≠ []))).toFinset⟩

/-- The move loop of `handle_unpaired_files`: for each relative path, if
`src.exists()` then `shutil.move` it to the destination directory under its
final name (`src.name`).  `mf src dst = true` means that `shutil.move` raises
for this pair; the raised exception stops the loop at once (the third
component records that an exception escaped). -/
def moveLoop (root destDir : FPath) (mf : FPath → FPath → Bool) :
    List FPath → FS → FS × List Event × Bool
  | [], fs => (fs, [], false)
  | f :: rest, fs =>
    if pathExists fs (root ++ f) then
      if mf (root ++ f) (destDir ++ [(root ++ f).getLastD ""]) then
        (fs, [], true)
      else
        let r := moveLoop root destDir mf rest
          (moveFile fs (root ++ f) (destDir ++ [(root ++ f).getLastD ""]))
        (r.1, Event.moved (root ++ f) (destDir ++ [(root ++ f).getLastD ""]) :: r.2.1, r.2.2)
    else moveLoop root destDir mf rest fs

/-- The delete loop of `handle_unpaired_files`: for each relative path, if
`src.exists()` then `src.unlink()`.  `uf src = true` means that `unlink`
raises for this path, stopping the loop at once. -/
def deleteLoop (root : FPath) (uf : FPath → Bool) :
    List FPath → FS → FS × List Event × Bool
  | [], fs => (fs, [], false)
  | f :: rest, fs =>
    if pathExists fs (root ++ f) then
      if uf (root ++ f) then
        (fs, [], true)
      else
        let r := deleteLoop root uf rest (unlinkFile fs (root ++ f))
        (r.1, Event.deleted (root ++ f) :: r.2.1, r.2.2)
    else deleteLoop root uf rest fs

/-- The MOVE body of `handle_unpaired_files`: create the two destination
directories (`parents=True, exist_ok=True`), move the missing files from
under the source root, then the extra files from under the target root.  A
raised exception aborts the rest and is logged once by the surrounding
handler. -/
def moveStage (fs : FS) (source_path target_path : FPath) (dest : String)
    (missing_files extra_files : List FPath)
    (mf : FPath → FPath → Bool) : FS × List Event :=
  let r1 := moveLoop source_path (source_path ++ [dest, "missing_in_target"]) mf
    missing_files
    (mkdirParents (mkdirParents fs (source_path ++ [dest, "missing_in_target"]))
      (target_path ++ [dest, "extra_in_target"]))
  if r1.2.2 then (r1.1, r1.2.1 ++ [Event.errorLogged])
  else
    let r2 := moveLoop target_path (target_path ++ [dest, "extra_in_target"]) mf
      extra_files r1.1
    if r2.2.2 then (r2.1, r1.2.1 ++ r2.2.1 ++ [Event.errorLogged])
    else (r2.1, r1.2.1 ++ r2.2.1)

/-- The DELETE body of `handle_unpaired_files` after an affirmative
confirmation: unlink the missing files under the source root, then the extra
files under the target root, with the same abort-on-first-exception
behavior. -/
def deleteStage (fs : FS) (source_path target_path : FPath)
    (missing_files extra_files : List FPath) (uf : FPath → Bool) : FS × List Event :=
  let r1 := deleteLoop source_path uf missing_files fs
  if r1.2.2 then (r1.1, Event.confirmAsked :: r1.2.1 ++ [Event.errorLogged])
  else
    let r2 := deleteLoop target_path uf extra_files r1.1
    if r2.2.2 then (r2.1, Event.confirmAsked :: r1.2.1 ++ r2.2.1 ++ [Event.errorLogged])
    else (r2.1, Event.confirmAsked :: r1.2.1 ++ r2.2.1)

/-- Mirrors `handle_unpaired_files(source_path, target_path, missing_files,
extra_files, action, destination_folder)`.  The unpaired sets are given in
their iteration order.  `confirm` is the answer of the `Confirm.ask` prompt;
`mf` and `uf` say which individual `shutil.move`/`unlink` calls raise.  The
whole action body sits in one `try`/`except`: the first raised exception
aborts the rest of the action, is logged once (`Event.errorLogged`), and the
function returns normally. -/
def handle_unpaired_files (fs : FS) (source_path target_path : FPath)
    (missing_files extra_files : List FPath) (action : Action)
    (destination_folder : Option String) (confirm : Bool)
    (mf : FPath → FPath → Bool) (uf : FPath → Bool) : FS × List Event :=
  if action = Action.none then (fs, [])
  else if action = Action.move ∧
      (destination_folder = Option.none ∨ destination_folder = some "") then
    (fs, [])
  else if action = Action.move then
    moveStage fs source_path target_path (destination_folder.getD "")
      missing_files extra_files mf
  else if action = Action.delete then
    if confirm then
      deleteStage fs source_path target_path missing_files extra_files uf
    else (fs, [Event.confirmAsked])
  else (fs, [])

/-- One enumeration of `missing_files` as iterated by `handle_unpaired_files`. -/
def missingList (source_files target_files : Snapshot) : List FPath :=
  ((source_files.map Prod.fst).filter
    (fun k => decide (k ∉ target_files.map Prod.fst))).dedup

/-- One enumeration of `extra_files` as iterated by `handle_unpaired_files`. -/
def extraList (source_files target_files : Snapshot) : List FPath :=
  ((target_files.map Prod.fst).filter
    (fun k => decide (k ∉ source_files.map Prod.fst))).dedup

/-- The tail of `compare_folders`: `handle_unpaired_files` runs only when
`(missing_files or extra_files) and action != Action.NONE`. -/
def compare_action_step (source_files target_files : Snapshot)
    (source_path target_path : FPath) (action : Action)
    (destination_folder : Option String) (confirm : Bool)
    (mf : FPath → FPath → Bool) (uf : FPath → Bool) (fs : FS) : FS × List Event :=
  if (missingList source_files target_files ≠ [] ∨
      extraList source_files target_files ≠ []) ∧ action ≠ Action.none then
    handle_unpaired_files fs source_path target_path
      (missingList source_files target_files) (extraList source_files target_files)
      action destination_folder confirm mf uf
  else (fs, [])

/-! Helper lemmas about the reconciler. -/

instance : Inhabited Fingerprint := ⟨⟨0, Option.none⟩⟩

lemma mem_snapshotKeys (s : Snapshot) (a : FPath) :
    a ∈ snapshotKeys s ↔ a ∈ s.map Prod.fst := by
  simp [snapshotKeys]

lemma lookupSnap_isSome_of_mem (s : Snapshot) (a : FPath)
    (h : a ∈ snapshotKeys s) : ∃ f, lookupSnap s a = some f := by
  rw [mem_snapshotKeys] at h
  induction s with
  | nil => simp at h
  | cons x rest ih =>
    obtain ⟨k, v⟩ := x
    by_cases hx : k = a
    · exact ⟨v, by simp [lookupSnap, hx]⟩
    · have : a ∈ rest.map Prod.fst := by
        simp at h ⊢
        rcases h with h | h
        · exact absurd h.symm hx
        · exact h
      obtain ⟨f, hf⟩ := ih this
      exact ⟨f, by simp [lookupSnap, hx, hf]⟩

lemma mem_of_lookupSnap (s : Snapshot) (a : FPath) (f : Fingerprint)
    (h : lookupSnap s a = some f) : a ∈ snapshotKeys s := by
  rw [mem_snapshotKeys]
  induction s with
  | nil => simp [lookupSnap] at h
  | cons x rest ih =>
    obtain ⟨k, v⟩ := x
    by_cases hx : k = a
    · simp [hx]
    · rw [lookupSnap, if_neg hx] at h
      simpa using Or.inr (ih h)

lemma mem_commonList (s t : Snapshot) (a : FPath) :
    a ∈ commonList s t ↔ a ∈ common_files s t := by
  simp [commonList, common_files, snapshotKeys, List.mem_dedup, List.mem_filter]

lemma content_fold (s t : Snapshot) :
    ∀ (l : List FPath) (acc : Finset FPath),
      l.foldl
        (fun acc filename =>
          if lookupSnap s filename ≠ lookupSnap t filename then
            insert filename acc
          else acc) acc
        = acc ∪ (l.filter (fun x => decide (lookupSnap s x ≠ lookupSnap t x))).toFinset := by
  intro l
  induction l with
  | nil => intro acc; simp
  | cons x xs ih =>
    intro acc
    rw [List.foldl_cons]
    by_cases h : lookupSnap s x ≠ lookupSnap t x
    · rw [if_pos h, ih, List.filter_cons_of_pos (by simpa using h), List.toFinset_cons,
        Finset.insert_union, Finset.union_insert]
    · rw [if_neg h, ih, List.filter_cons_of_neg (by simpa using h)]

lemma content_mismatches_true (s t : Snapshot) :
    content_mismatches s t true
      = (common_files s t).filter (fun p => lookupSnap s p ≠ lookupSnap t p) := by
  rw [content_mismatches, if_pos rfl, content_fold]
  ext a
  rw [Finset.empty_union, List.mem_toFinset, List.mem_filter, Finset.mem_filter,
    mem_commonList s t a]
  simp

lemma missingList_toFinset (s t : Snapshot) :
    (missingList s t).toFinset = missing_files s t := by
  ext a
  simp [missingList, missing_files, snapshotKeys, List.mem_dedup, List.mem_filter]

lemma extraList_toFinset (s t : Snapshot) :
    (extraList s t).toFinset = extra_files s t := by
  ext a
  simp [extraList, extra_files, snapshotKeys, List.mem_dedup, List.mem_filter]

lemma eq_nil_of_toFinset_empty (l : List FPath) (h : l.toFinset = ∅) : l = [] := by
  cases l with
  | nil => rfl
  | cons x xs =>
    exfalso
    have : x ∈ (x :: xs).toFinset := by simp
    rw [h] at this
    exact absurd this (Finset.not_mem_empty x)

/-! Helper lemmas about the filesystem model and the loops. -/

lemma mkdirParents_files (fs : FS) (p : FPath) :
    (mkdirParents fs p).files = fs.files := rfl

lemma self_mem_mkdirParents_dirs (fs : FS) (p : FPath) (hp : p ≠ []) :
    p ∈ (mkdirParents fs p).dirs := by
  simp [mkdirParents, List.mem_filter, hp]

lemma mem_mkdirParents_dirs_of_mem (fs : FS) (p q : FPath) (h : q ∈ fs.dirs) :
    q ∈ (mkdirParents fs p).dirs := by
  simp [mkdirParents]
  exact Or.inl h

lemma moveLoop_dirs (root destDir : FPath) (mf : FPath → FPath → Bool) :
    ∀ (l : List FPath) (fs : FS),
      (moveLoop root destDir mf l fs).1.dirs = fs.dirs := by
  intro l
  induction l with
  | nil => intro fs; rfl
  | cons f rest ih =>
    intro fs
    rw [moveLoop]
    by_cases hex : pathExists fs (root ++ f)
    · rw [if_pos hex]
      by_cases hm : mf (root ++ f) (destDir ++ [(root ++ f).getLastD ""])
      · rw [if_pos hm]
      · rw [if_neg hm]
        simpa using ih (moveFile fs (root ++ f) (destDir ++ [(root ++ f).getLastD ""]))
    · rw [if_neg hex]
      exact ih fs

lemma moveLoop_noabort (root destDir : FPath) (mf : FPath → FPath → Bool)
    (hmf : ∀ a b, mf a b = false) :
    ∀ (l : List FPath) (fs : FS), (moveLoop root destDir mf l fs).2.2 = false := by
  intro l
  induction l with
  | nil => intro fs; rfl
  | cons f rest ih =>
    intro fs
    rw [moveLoop]
    by_cases hex : pathExists fs (root ++ f)
    · rw [if_pos hex, if_neg (by simp [hmf])]
      simpa using ih (moveFile fs (root ++ f) (destDir ++ [(root ++ f).getLastD ""]))
    · rw [if_neg hex]
      exact ih fs

lemma moveFile_mem_files_iff (fs : FS) (src dst p : FPath)
    (hsrc : src ≠ p) (hdst : dst ≠ p) :
    p ∈ (moveFile fs src dst).files ↔ p ∈ fs.files := by
  show p ∈ insert dst (fs.files.erase src) ↔ p ∈ fs.files
  rw [Finset.mem_insert, Finset.mem_erase]
  constructor
  · rintro (h | h)
    · exact absurd h.symm hdst
    · exact h.2
  · intro h
    exact Or.inr ⟨fun hh => hsrc hh.symm, h⟩

lemma moveLoop_files_iff (root destLoopDir : FPath) (mf : FPath → FPath → Bool)
    (p : FPath) :
    ∀ (l : List FPath) (fs : FS),
      (∀ f ∈ l, root ++ f ≠ p) →
      (∀ f ∈ l, destLoopDir ++ [(root ++ f).getLastD ""] ≠ p) →
      (p ∈ (moveLoop root destLoopDir mf l fs).1.files ↔ p ∈ fs.files) := by
  intro l
  induction l with
  | nil => intro fs _ _; rfl
  | cons f rest ih =>
    intro fs hsrc hdst
    have hsrc0 : root ++ f ≠ p := hsrc f (by simp)
    have hdst0 : destLoopDir ++ [(root ++ f).getLastD ""] ≠ p := hdst f (by simp)
    have hsrc' : ∀ g ∈ rest, root ++ g ≠ p := fun g hg => hsrc g (by simp [hg])
    have hdst' : ∀ g ∈ rest, destLoopDir ++ [(root ++ g).getLastD ""] ≠ p :=
      fun g hg => hdst g (by simp [hg])
    rw [moveLoop]
    by_cases hex : pathExists fs (root ++ f)
    · rw [if_pos hex]
      by_cases hm : mf (root ++ f) (destLoopDir ++ [(root ++ f).getLastD ""])
      · rw [if_pos hm]
      · rw [if_neg hm]
        show p ∈ (moveLoop root destLoopDir mf rest
          (moveFile fs (root ++ f) (destLoopDir ++ [(root ++ f).getLastD ""]))).1.files
            ↔ p ∈ fs.files
        rw [ih (moveFile fs (root ++ f) (destLoopDir ++ [(root ++ f).getLastD ""]))
          hsrc' hdst']
        exact moveFile_mem_files_iff fs _ _ p hsrc0 hdst0
    · rw [if_neg hex]
      exact ih fs hsrc' hdst'

lemma moveLoop_moved_mem (root destDir : FPath) (mf : FPath → FPath → Bool)
    (hmf : ∀ a b, mf a b = false) (f : FPath) :
    ∀ (l : List FPath) (fs : FS), f ∈ l → root ++ f ∈ fs.files →
      Event.moved (root ++ f) (destDir ++ [(root ++ f).getLastD ""])
        ∈ (moveLoop root destDir mf l fs).2.1 := by
  intro l
  induction l with
  | nil => intro fs h; simp at h
  | cons g rest ih =>
    intro fs hmem hfile
    rw [moveLoop]
    by_cases hg : g = f
    · subst hg
      have hex : pathExists fs (root ++ g) = true := by
        simp [pathExists]
        exact Or.inl hfile
      rw [if_pos hex, if_neg (by simp [hmf])]
      simp
    · have hmem' : f ∈ rest := by
        rcases List.mem_cons.mp hmem with h | h
        · exact absurd h.symm hg
        · exact h
      by_cases hex : pathExists fs (root ++ g)
      · rw [if_pos hex, if_neg (by simp [hmf])]
        have hne : root ++ f ≠ root ++ g := by
          intro h
          exact hg (List.append_cancel_left h).symm
        have hfile' : root ++ f ∈
            (moveFile fs (root ++ g) (destDir ++ [(root ++ g).getLastD ""])).files := by
          show root ++ f ∈ insert (destDir ++ [(root ++ g).getLastD ""])
            (fs.files.erase (root ++ g))
          exact Finset.mem_insert_of_mem (Finset.mem_erase.mpr ⟨hne, hfile⟩)
        have := ih (moveFile fs (root ++ g) (destDir ++ [(root ++ g).getLastD ""]))
          hmem' hfile'
        simp only [List.mem_cons]
        exact Or.inr this
      · rw [if_neg hex]
        exact ih fs hmem' hfile

lemma prefix_append_cases (tp sp r : FPath) (h : tp <+: sp ++ r) :
    tp <+: sp ∨ sp <+: tp := by
  rcases le_or_lt tp.length sp.length with hle | hlt
  · exact Or.inl (List.prefix_of_prefix_length_le h (List.prefix_append sp r) hle)
  · exact Or.inr (List.prefix_of_prefix_length_le (List.prefix_append sp r) h (le_of_lt hlt))

lemma pathExists_of_mem_files (fs : FS) (p : FPath) (h : p ∈ fs.files) :
    pathExists fs p = true := by
  simp [pathExists]
  exact Or.inl h

lemma fingerprint_ne_iff (f g : Fingerprint) :
    f ≠ g ↔ (f.size ≠ g.size ∨ f.digest ≠ g.digest) := by
  cases f
  cases g
  rw [Ne, Fingerprint.mk.injEq, not_and_or]

/-! Claim C4. -/

/-- C4 counterexample: for a path that is not a regular file,
`calculate_file_hash` does not fail with an IOError; it returns the
empty-string digest (modelled by `Option.none`) as an ordinary value. -/
theorem claim4_counterexample :
    calculate_file_hash_run PathState.notAFile 8192 = Except.ok Option.none := rfl

/-- C4 (amended): `calculate_file_hash` raises an IOError exactly when the
path passes the `is_file` check and the subsequent `stat`/`open` raises; a
path that is not (or no longer) a regular file instead yields the
empty-string digest with no error. -/
theorem claim4_theorem (st : PathState) (chunk_size : Nat) :
    ((∃ msg, calculate_file_hash_run st chunk_size = Except.error msg) ↔
      (∃ c, st = PathState.vanishesAfterCheck c))
    ∧ calculate_file_hash_run PathState.notAFile chunk_size = Except.ok Option.none := by
  constructor
  · constructor
    · rintro ⟨msg, hmsg⟩
      cases st with
      | notAFile => simp [calculate_file_hash_run, calculate_file_hash] at hmsg
      | vanishesAfterCheck c => exact ⟨c, rfl⟩
      | readable c => simp [calculate_file_hash_run] at hmsg
    · rintro ⟨c, rfl⟩
      exact ⟨FsError.ioErr, rfl⟩
  · rfl

/-- C4 witness: the amended statement at a concrete input. -/
theorem claim4_witness :
    ((∃ msg, calculate_file_hash_run PathState.notAFile 8192 = Except.error msg) ↔
      (∃ c, PathState.notAFile = PathState.vanishesAfterCheck c))
    ∧ calculate_file_hash_run PathState.notAFile 8192 = Except.ok Option.none :=
  claim4_theorem PathState.notAFile 8192

/-! Claim C5. -/

/-- C5: the reconciler computes `missing` as the key difference source minus
target, `extra` as target minus source; with content checking disabled the
mismatch set is empty (no fingerprint comparison takes place); with content
checking enabled a path is mismatched exactly when it is common to both
snapshots and its two recorded `(size, digest)` fingerprints differ in the
size or in the digest field. -/
theorem claim5_theorem (s t : Snapshot) (p : FPath) :
    missing_files s t = snapshotKeys s \ snapshotKeys t
    ∧ extra_files s t = snapshotKeys t \ snapshotKeys s
    ∧ content_mismatches s t false = ∅
    ∧ (p ∈ content_mismatches s t true ↔
        p ∈ common_files s t ∧ ∃ f g, lookupSnap s p = some f ∧ lookupSnap t p = some g ∧
          (f.size ≠ g.size ∨ f.digest ≠ g.digest)) := by
  refine ⟨rfl, rfl, by simp [content_mismatches], ?_⟩
  rw [content_mismatches_true, Finset.mem_filter]
  constructor
  · rintro ⟨hc, hne⟩
    refine ⟨hc, ?_⟩
    have hc' : p ∈ snapshotKeys s ∩ snapshotKeys t := hc
    rw [Finset.mem_inter] at hc'
    obtain ⟨f, hf⟩ := lookupSnap_isSome_of_mem s p hc'.1
    obtain ⟨g, hg⟩ := lookupSnap_isSome_of_mem t p hc'.2
    refine ⟨f, g, hf, hg, ?_⟩
    rw [← fingerprint_ne_iff]
    intro hfg
    apply hne
    rw [hf, hg, hfg]
  · rintro ⟨hc, f, g, hf, hg, hfg⟩
    refine ⟨hc, ?_⟩
    rw [hf, hg]
    intro heq
    have : f = g := Option.some.inj heq
    rw [← fingerprint_ne_iff] at hfg
    exact hfg this

/-- C5 witness: the statement at a concrete pair of snapshots. -/
theorem claim5_witness :
    missing_files [ (⟨[ "a" ], ⟨1, some [ 7 ]⟩⟩ : FPath × Fingerprint) ] []
      = snapshotKeys [ (⟨[ "a" ], ⟨1, some [ 7 ]⟩⟩ : FPath × Fingerprint) ] \ snapshotKeys []
    ∧ extra_files [ (⟨[ "a" ], ⟨1, some [ 7 ]⟩⟩ : FPath × Fingerprint) ] []
      = snapshotKeys [] \ snapshotKeys [ (⟨[ "a" ], ⟨1, some [ 7 ]⟩⟩ : FPath × Fingerprint) ]
    ∧ content_mismatches [ (⟨[ "a" ], ⟨1, some [ 7 ]⟩⟩ : FPath × Fingerprint) ] [] false = ∅
    ∧ ([ "a" ] ∈ content_mismatches [ (⟨[ "a" ], ⟨1, some [ 7 ]⟩⟩ : FPath × Fingerprint) ] [] true ↔
        [ "a" ] ∈ common_files [ (⟨[ "a" ], ⟨1, some [ 7 ]⟩⟩ : FPath × Fingerprint) ] []
        ∧ ∃ f g, lookupSnap [ (⟨[ "a" ], ⟨1, some [ 7 ]⟩⟩ : FPath × Fingerprint) ] [ "a" ] = some f
          ∧ lookupSnap [] [ "a" ] = some g
          ∧ (f.size ≠ g.size ∨ f.digest ≠ g.digest)) :=
  claim5_theorem [ ⟨[ "a" ], ⟨1, some [ 7 ]⟩⟩ ] [] [ "a" ]

/-! Claim C6. -/

/-- C6: `missing` and `extra` are disjoint from each other and from the
common-path set, and the mismatch set is contained in the common-path set. -/
theorem claim6_theorem (s t : Snapshot) (check : Bool) :
    Disjoint (missing_files s t) (extra_files s t)
    ∧ Disjoint (missing_files s t) (common_files s t)
    ∧ Disjoint (extra_files s t) (common_files s t)
    ∧ content_mismatches s t check ⊆ common_files s t := by
  refine ⟨?_, ?_, ?_, ?_⟩
  · rw [Finset.disjoint_left]
    intro a ha hb
    have ha' : a ∈ snapshotKeys s \ snapshotKeys t := ha
    have hb' : a ∈ snapshotKeys t \ snapshotKeys s := hb
    rw [Finset.mem_sdiff] at ha' hb'
    exact ha'.2 hb'.1
  · rw [Finset.disjoint_left]
    intro a ha hb
    have ha' : a ∈ snapshotKeys s \ snapshotKeys t := ha
    have hb' : a ∈ snapshotKeys s ∩ snapshotKeys t := hb
    rw [Finset.mem_sdiff] at ha'
    rw [Finset.mem_inter] at hb'
    exact ha'.2 hb'.2
  · rw [Finset.disjoint_left]
    intro a ha hb
    have ha' : a ∈ snapshotKeys t \ snapshotKeys s := ha
    have hb' : a ∈ snapshotKeys s ∩ snapshotKeys t := hb
    rw [Finset.mem_sdiff] at ha'
    rw [Finset.mem_inter] at hb'
    exact ha'.2 hb'.1
  · cases check with
    | false =>
      intro a ha
      simp [content_mismatches] at ha
    | true =>
      rw [content_mismatches_true]
      exact Finset.filter_subset _ _

/-- C6 witness: the statement at a concrete pair of snapshots. -/
theorem claim6_witness :
    Disjoint (missing_files [ (⟨[ "a" ], ⟨1, some [ 7 ]⟩⟩ : FPath × Fingerprint) ] [])
      (extra_files [ (⟨[ "a" ], ⟨1, some [ 7 ]⟩⟩ : FPath × Fingerprint) ] [])
    ∧ Disjoint (missing_files [ (⟨[ "a" ], ⟨1, some [ 7 ]⟩⟩ : FPath × Fingerprint) ] [])
      (common_files [ (⟨[ "a" ], ⟨1, some [ 7 ]⟩⟩ : FPath × Fingerprint) ] [])
    ∧ Disjoint (extra_files [ (⟨[ "a" ], ⟨1, some [ 7 ]⟩⟩ : FPath × Fingerprint) ] [])
      (common_files [ (⟨[ "a" ], ⟨1, some [ 7 ]⟩⟩ : FPath × Fingerprint) ] [])
    ∧ content_mismatches [ (⟨[ "a" ], ⟨1, some [ 7 ]⟩⟩ : FPath × Fingerprint) ] [] true
      ⊆ common_files [ (⟨[ "a" ], ⟨1, some [ 7 ]⟩⟩ : FPath × Fingerprint) ] [] :=
  claim6_theorem [ ⟨[ "a" ], ⟨1, some [ 7 ]⟩⟩ ] [] true

/-! Claim C7. -/

/-- C7: a path recorded in both snapshots whose sizes differ is classified as
mismatched under content checking, whatever the digests are (in particular
even when the digests coincide). -/
theorem claim7_theorem (s t : Snapshot) (p : FPath) (f g : Fingerprint)
    (hf : lookupSnap s p = some f) (hg : lookupSnap t p = some g)
    (hsz : f.size ≠ g.size) :
    p ∈ content_mismatches s t true := by
  have hc : p ∈ common_files s t :=
    Finset.mem_inter.mpr ⟨mem_of_lookupSnap s p f hf, mem_of_lookupSnap t p g hg⟩
  rw [content_mismatches_true, Finset.mem_filter]
  refine ⟨hc, ?_⟩
  rw [hf, hg]
  intro h
  exact hsz (congrArg Fingerprint.size (Option.some.inj h))

/-- C7 witness: two snapshots recording the same path with equal digests but
different sizes; the path lands in the mismatch set. -/
theorem claim7_witness :
    lookupSnap [ (⟨[ "a" ], ⟨1, some [ 7 ]⟩⟩ : FPath × Fingerprint) ] [ "a" ]
      = some ⟨1, some [ 7 ]⟩
    ∧ lookupSnap [ (⟨[ "a" ], ⟨2, some [ 7 ]⟩⟩ : FPath × Fingerprint) ] [ "a" ]
      = some ⟨2, some [ 7 ]⟩
    ∧ (⟨1, some [ 7 ]⟩ : Fingerprint).size ≠ (⟨2, some [ 7 ]⟩ : Fingerprint).size
    ∧ [ "a" ] ∈ content_mismatches [ ⟨[ "a" ], ⟨1, some [ 7 ]⟩⟩ ]
        [ ⟨[ "a" ], ⟨2, some [ 7 ]⟩⟩ ] true :=
  ⟨rfl, rfl, by decide,
    claim7_theorem [ ⟨[ "a" ], ⟨1, some [ 7 ]⟩⟩ ] [ ⟨[ "a" ], ⟨2, some [ 7 ]⟩⟩ ]
      [ "a" ] ⟨1, some [ 7 ]⟩ ⟨2, some [ 7 ]⟩ rfl rfl (by decide)⟩

/-! Claim C9. -/

/-- C9: the fingerprint is a function only of the size, the first 8192 bytes
and the last 8192 bytes: two files agreeing on those three produce identical
digests and identical `(size, digest)` fingerprints, whatever their middle
bytes are. -/
theorem claim9_theorem (c1 c2 : List Nat)
    (hlen : c1.length = c2.length)
    (hfirst : c1.take 8192 = c2.take 8192)
    (hlast : c1.drop (c1.length - 8192) = c2.drop (c2.length - 8192)) :
    calculate_file_hash (some c1) 8192 = calculate_file_hash (some c2) 8192
    ∧ (⟨c1.length, calculate_file_hash (some c1) 8192⟩ : Fingerprint)
      = ⟨c2.length, calculate_file_hash (some c2) 8192⟩ := by
  have hh : calculate_file_hash (some c1) 8192 = calculate_file_hash (some c2) 8192 := by
    simp only [calculate_file_hash]
    rw [hfirst, hlast, hlen]
  exact ⟨hh, by rw [hh, hlen]⟩

/-- C9 witness: the statement at a concrete file content. -/
theorem claim9_witness :
    calculate_file_hash (some [ 1, 2 ]) 8192 = calculate_file_hash (some [ 1, 2 ]) 8192
    ∧ (⟨([ 1, 2 ] : List Nat).length, calculate_file_hash (some [ 1, 2 ]) 8192⟩ : Fingerprint)
      = ⟨([ 1, 2 ] : List Nat).length, calculate_file_hash (some [ 1, 2 ]) 8192⟩ :=
  claim9_theorem [ 1, 2 ] [ 1, 2 ] rfl rfl rfl

/-! Claim C2. -/

lemma get_files_info_go_error (e : Entry) (he : e.fate = Fate.goneAtStat)
    (post : List Entry) :
    ∀ (pre : List Entry) (acc : Snapshot),
      ∃ msg, get_files_info_go (pre ++ e :: post) acc = Except.error msg := by
  intro pre
  induction pre with
  | nil =>
    intro acc
    exact ⟨FsError.fileNotFound, by simp [get_files_info_go, he]⟩
  | cons x rest ih =>
    intro acc
    cases hx : x.fate with
    | goneAtCheck => simpa [get_files_info_go, hx] using ih acc
    | goneAtStat => exact ⟨FsError.fileNotFound, by simp [get_files_info_go, hx]⟩
    | goneAtHash =>
      simpa [get_files_info_go, hx, entryHashState, calculate_file_hash_run,
        calculate_file_hash] using ih _
    | goneInHash =>
      exact ⟨FsError.ioErr,
        by simp [get_files_info_go, hx, entryHashState, calculate_file_hash_run]⟩
    | present =>
      simpa [get_files_info_go, hx, entryHashState, calculate_file_hash_run] using ih _

/-- C2 counterexample: a scan over three enumerated entries in which the
middle one vanishes between the `is_file` check and `stat()` returns an
error — not a snapshot containing the two other readable files. -/
theorem claim2_counterexample :
    get_files_info [ ⟨[ "a.txt" ], [ 1, 2, 3 ], Fate.present⟩,
      ⟨[ "b.txt" ], [ 4 ], Fate.goneAtStat⟩,
      ⟨[ "c.txt" ], [ 5 ], Fate.present⟩ ] = Except.error FsError.fileNotFound := by
  rfl

/-- C2 (amended): an entry already gone at the `is_file` check is skipped
silently (no warning is logged — the scanner has no logging), but an entry
that vanishes between the `is_file` check and `stat()` raises an exception
that aborts the whole scan: `get_files_info` returns an error and no partial
snapshot. -/
theorem claim2_theorem :
    (∀ (e : Entry) (rest : List Entry), e.fate = Fate.goneAtCheck →
      get_files_info (e :: rest) = get_files_info rest)
    ∧ (∀ (pre : List Entry) (e : Entry) (post : List Entry), e.fate = Fate.goneAtStat →
      ∃ msg, get_files_info (pre ++ e :: post) = Except.error msg) := by
  constructor
  · intro e rest h
    simp [get_files_info, get_files_info_go, h]
  · intro pre e post he
    exact get_files_info_go_error e he post pre []

/-- C2 witness: the amended statement at concrete entries. -/
theorem claim2_witness :
    get_files_info [ (⟨[ "x" ], [ 9 ], Fate.goneAtCheck⟩ : Entry),
        ⟨[ "y" ], [ 1 ], Fate.present⟩ ]
      = get_files_info [ ⟨[ "y" ], [ 1 ], Fate.present⟩ ]
    ∧ ∃ msg, get_files_info ([ (⟨[ "y" ], [ 1 ], Fate.present⟩ : Entry) ]
        ++ (⟨[ "x" ], [ 9 ], Fate.goneAtStat⟩ : Entry) :: [])
      = Except.error msg :=
  ⟨claim2_theorem.1 _ _ rfl, claim2_theorem.2 _ _ _ rfl⟩

/-! Claim C8. -/

/-- C8: a DELETE application with a negative confirmation returns with the
filesystem unchanged and only the prompt event emitted (a safe no-op, never a
partial delete); and whenever any delete event was emitted at all, the
confirmation was affirmative. -/
theorem claim8_theorem (fs : FS) (sp tp : FPath) (missing extra : List FPath)
    (dest : Option String) (mf : FPath → FPath → Bool) (uf : FPath → Bool) :
    handle_unpaired_files fs sp tp missing extra Action.delete dest false mf uf
      = (fs, [Event.confirmAsked])
    ∧ ∀ (confirm : Bool) (p : FPath),
        Event.deleted p ∈
          (handle_unpaired_files fs sp tp missing extra Action.delete dest confirm mf uf).2
        → confirm = true := by
  have h1 : handle_unpaired_files fs sp tp missing extra Action.delete dest false mf uf
      = (fs, [Event.confirmAsked]) := by
    simp [handle_unpaired_files]
  refine ⟨h1, ?_⟩
  intro confirm p hmem
  cases confirm with
  | true => rfl
  | false =>
    rw [h1] at hmem
    simp at hmem

/-- C8 witness: the no-op equation at a concrete input. -/
theorem claim8_witness :
    handle_unpaired_files ⟨∅, ∅⟩ [] [] [] [] Action.delete Option.none false
      (fun _ _ => false) (fun _ => false) = (⟨∅, ∅⟩, [Event.confirmAsked]) :=
  (claim8_theorem ⟨∅, ∅⟩ [] [] [] [] Option.none (fun _ _ => false) (fun _ => false)).1

/-! Claim C10. -/

/-- C10: when the computed missing and extra sets are both empty, the action
executor is not invoked at all, whatever the requested action: no
confirmation prompt, no directory creation, no mutation of either tree. -/
theorem claim10_theorem (s t : Snapshot) (sp tp : FPath) (action : Action)
    (dest : Option String) (confirm : Bool) (mf : FPath → FPath → Bool)
    (uf : FPath → Bool) (fs : FS)
    (hm : missing_files s t = ∅) (he : extra_files s t = ∅) :
    compare_action_step s t sp tp action dest confirm mf uf fs = (fs, []) := by
  have h1 : missingList s t = [] :=
    eq_nil_of_toFinset_empty _ (by rw [missingList_toFinset]; exact hm)
  have h2 : extraList s t = [] :=
    eq_nil_of_toFinset_empty _ (by rw [extraList_toFinset]; exact he)
  simp only [compare_action_step, h1, h2]
  rw [if_neg (by simp)]

/-- C10 witness: the statement at a concrete comparison with equal (empty)
snapshots and the DELETE action requested. -/
theorem claim10_witness :
    compare_action_step [] [] [] [] Action.delete Option.none true
      (fun _ _ => false) (fun _ => false) ⟨∅, ∅⟩ = (⟨∅, ∅⟩, []) :=
  claim10_theorem [] [] [] [] Action.delete Option.none true
    (fun _ _ => false) (fun _ => false) ⟨∅, ∅⟩ (by decide) (by decide)

/-! Dispatch and stage lemmas for the action executor. -/

lemma handle_move_eq (fs : FS) (sp tp : FPath) (missing extra : List FPath)
    (d : String) (confirm : Bool) (mf : FPath → FPath → Bool) (uf : FPath → Bool)
    (hd : d ≠ "") :
    handle_unpaired_files fs sp tp missing extra Action.move (some d) confirm mf uf
      = moveStage fs sp tp d missing extra mf := by
  simp [handle_unpaired_files, hd]

lemma handle_delete_eq (fs : FS) (sp tp : FPath) (missing extra : List FPath)
    (dest : Option String) (mf : FPath → FPath → Bool) (uf : FPath → Bool) :
    handle_unpaired_files fs sp tp missing extra Action.delete dest true mf uf
      = deleteStage fs sp tp missing extra uf := by
  simp [handle_unpaired_files]

lemma moveStage_abort (fs : FS) (sp tp : FPath) (d : String) (f : FPath)
    (post extra : List FPath) (mf : FPath → FPath → Bool)
    (hex : sp ++ f ∈ fs.files)
    (hmf : mf (sp ++ f) (sp ++ [d, "missing_in_target"] ++ [ (sp ++ f).getLastD "" ]) = true) :
    moveStage fs sp tp d (f :: post) extra mf
      = (mkdirParents (mkdirParents fs (sp ++ [d, "missing_in_target"]))
          (tp ++ [d, "extra_in_target"]), [Event.errorLogged]) := by
  have hstep : moveLoop sp (sp ++ [d, "missing_in_target"]) mf (f :: post)
      (mkdirParents (mkdirParents fs (sp ++ [d, "missing_in_target"]))
        (tp ++ [d, "extra_in_target"]))
      = (mkdirParents (mkdirParents fs (sp ++ [d, "missing_in_target"]))
          (tp ++ [d, "extra_in_target"]), [], true) := by
    simp only [moveLoop]
    rw [if_pos (pathExists_of_mem_files
        (mkdirParents (mkdirParents fs (sp ++ [d, "missing_in_target"]))
          (tp ++ [d, "extra_in_target"])) (sp ++ f) hex),
      if_pos hmf]
  simp only [moveStage, hstep]
  simp

lemma deleteStage_abort (fs : FS) (sp tp : FPath) (f : FPath)
    (post extra : List FPath) (uf : FPath → Bool)
    (hex : sp ++ f ∈ fs.files) (huf : uf (sp ++ f) = true) :
    deleteStage fs sp tp (f :: post) extra uf
      = (fs, [Event.confirmAsked, Event.errorLogged]) := by
  have hstep : deleteLoop sp uf (f :: post) fs = (fs, [], true) := by
    simp only [deleteLoop]
    rw [if_pos (pathExists_of_mem_files _ _ hex), if_pos huf]
  simp only [deleteStage, hstep]
  simp

lemma moveStage_noabort (fs : FS) (sp tp : FPath) (d : String)
    (missing : List FPath) (mf : FPath → FPath → Bool)
    (hmf : ∀ a b, mf a b = false) :
    moveStage fs sp tp d missing [] mf
      = ((moveLoop sp (sp ++ [d, "missing_in_target"]) mf missing
            (mkdirParents (mkdirParents fs (sp ++ [d, "missing_in_target"]))
              (tp ++ [d, "extra_in_target"]))).1,
         (moveLoop sp (sp ++ [d, "missing_in_target"]) mf missing
            (mkdirParents (mkdirParents fs (sp ++ [d, "missing_in_target"]))
              (tp ++ [d, "extra_in_target"]))).2.1) := by
  have hab := moveLoop_noabort sp (sp ++ [d, "missing_in_target"]) mf hmf missing
    (mkdirParents (mkdirParents fs (sp ++ [d, "missing_in_target"]))
      (tp ++ [d, "extra_in_target"]))
  simp only [moveStage]
  rw [if_neg (by simp [hab])]
  simp only [moveLoop]
  simp

/-! Claim C1. -/

/-- C1 counterexample: with `missing = [a, b]`, both present, where only the
move of `a` raises: file `b` (whose own move would succeed, an unaffected
file) is left unmoved at its original location, so the operation does not
complete for all unaffected files. -/
theorem claim1_counterexample :
    ([ "src", "b" ] ∈ (handle_unpaired_files
        ⟨{[ "src", "a" ], [ "src", "b" ]}, {[ "src" ], [ "tgt" ]}⟩
        [ "src" ] [ "tgt" ] [ [ "a" ], [ "b" ] ] [] Action.move (some "archive") true
        (fun s _ => decide (s = [ "src", "a" ])) (fun _ => false)).1.files)
    ∧ ([ "src", "archive", "missing_in_target", "b" ] ∉ (handle_unpaired_files
        ⟨{[ "src", "a" ], [ "src", "b" ]}, {[ "src" ], [ "tgt" ]}⟩
        [ "src" ] [ "tgt" ] [ [ "a" ], [ "b" ] ] [] Action.move (some "archive") true
        (fun s _ => decide (s = [ "src", "a" ])) (fun _ => false)).1.files) := by
  decide

/-- C1 (amended): the failure of an individual file's move or delete aborts
the processing of the remaining files: the exception escapes the per-file
loop to the single handler around the whole action, which logs one error and
returns; the files after the failing one (including the whole extra set) are
not processed, and no per-file failure list is produced.  When the first
missing file's move raises, the result is the filesystem as of the two
directory creations with only the error event; when the first missing file's
unlink raises after confirmation, the filesystem is returned unchanged with
the prompt and error events. -/
theorem claim1_theorem (fs : FS) (sp tp : FPath) (d : String) (f : FPath)
    (post extra : List FPath) (dest : Option String) (confirm : Bool)
    (mf : FPath → FPath → Bool) (uf : FPath → Bool) :
    (d ≠ "" → sp ++ f ∈ fs.files →
      mf (sp ++ f) (sp ++ [d, "missing_in_target"] ++ [ (sp ++ f).getLastD "" ]) = true →
      handle_unpaired_files fs sp tp (f :: post) extra Action.move (some d) confirm mf uf
        = (mkdirParents (mkdirParents fs (sp ++ [d, "missing_in_target"]))
            (tp ++ [d, "extra_in_target"]), [Event.errorLogged]))
    ∧ (sp ++ f ∈ fs.files → uf (sp ++ f) = true →
      handle_unpaired_files fs sp tp (f :: post) extra Action.delete dest true mf uf
        = (fs, [Event.confirmAsked, Event.errorLogged])) := by
  constructor
  · intro hd hex hmf
    rw [handle_move_eq fs sp tp (f :: post) extra d confirm mf uf hd,
      moveStage_abort fs sp tp d f post extra mf hex hmf]
  · intro hex huf
    rw [handle_delete_eq fs sp tp (f :: post) extra dest mf uf,
      deleteStage_abort fs sp tp f post extra uf hex huf]

/-- C1 witness: the amended statement at a concrete input where the first
file's move (respectively unlink) raises. -/
theorem claim1_witness :
    (handle_unpaired_files ⟨{[ "src", "a" ]}, ∅⟩ [ "src" ] [ "tgt" ] [ [ "a" ] ] []
        Action.move (some "archive") true (fun _ _ => true) (fun _ => true)
      = (mkdirParents (mkdirParents ⟨{[ "src", "a" ]}, ∅⟩
            ([ "src" ] ++ [ "archive", "missing_in_target" ]))
          ([ "tgt" ] ++ [ "archive", "extra_in_target" ]), [Event.errorLogged]))
    ∧ (handle_unpaired_files ⟨{[ "src", "a" ]}, ∅⟩ [ "src" ] [ "tgt" ] [ [ "a" ] ] []
        Action.delete Option.none true (fun _ _ => true) (fun _ => true)
      = (⟨{[ "src", "a" ]}, ∅⟩, [Event.confirmAsked, Event.errorLogged])) := by
  have h := claim1_theorem ⟨{[ "src", "a" ]}, ∅⟩ [ "src" ] [ "tgt" ] "archive" [ "a" ]
    [] [] Option.none true (fun _ _ => true) (fun _ => true)
  exact ⟨h.1 (by decide) (by decide) rfl, h.2 (by decide) rfl⟩

/-! Claim C3. -/

/-- C3 counterexample: a MOVE with one missing file and no extra files still
creates the directory `target_root/<dest>/extra_in_target` under the target
root, so the target tree is not left completely untouched. -/
theorem claim3_counterexample :
    ([ "tgt", "archive", "extra_in_target" ] ∈ (handle_unpaired_files
        ⟨{[ "src", "x.raw" ]}, {[ "src" ], [ "tgt" ]}⟩ [ "src" ] [ "tgt" ]
        [ [ "x.raw" ] ] [] Action.move (some "archive") true
        (fun _ _ => false) (fun _ => false)).1.dirs)
    ∧ ([ "tgt", "archive", "extra_in_target" ] ∉
        (⟨{[ "src", "x.raw" ]}, {[ "src" ], [ "tgt" ]}⟩ : FS).dirs) := by
  decide

/-- C3 (amended): for a MOVE with a non-empty destination name, empty extra
set and no move failures, every still-existing missing file is moved from
under the source root into `source_root/<dest>/missing_in_target/<filename>`;
the target root's files are untouched (for disjoint roots, any path under the
target root is a file afterward iff it was one before); but the executor
unconditionally creates `target_root/<dest>/extra_in_target` under the target
root even though extra is empty. -/
theorem claim3_theorem (fs : FS) (sp tp : FPath) (d : String) (missing : List FPath)
    (confirm : Bool) (mf : FPath → FPath → Bool) (uf : FPath → Bool)
    (hd : d ≠ "") (hmf : ∀ a b, mf a b = false)
    (h1 : ¬ sp <+: tp) (h2 : ¬ tp <+: sp) :
    (∀ f ∈ missing, sp ++ f ∈ fs.files →
      Event.moved (sp ++ f) (sp ++ [d, "missing_in_target"] ++ [ (sp ++ f).getLastD "" ])
        ∈ (handle_unpaired_files fs sp tp missing [] Action.move (some d) confirm mf uf).2)
    ∧ (∀ p : FPath, tp <+: p →
        ((p ∈ (handle_unpaired_files fs sp tp missing [] Action.move (some d) confirm mf uf).1.files)
          ↔ p ∈ fs.files))
    ∧ tp ++ [d, "extra_in_target"]
        ∈ (handle_unpaired_files fs sp tp missing [] Action.move (some d) confirm mf uf).1.dirs := by
  rw [handle_move_eq fs sp tp missing [] d confirm mf uf hd,
    moveStage_noabort fs sp tp d missing mf hmf]
  refine ⟨?_, ?_, ?_⟩
  · intro f hf hex
    exact moveLoop_moved_mem sp (sp ++ [d, "missing_in_target"]) mf hmf f missing
      (mkdirParents (mkdirParents fs (sp ++ [d, "missing_in_target"]))
        (tp ++ [d, "extra_in_target"])) hf hex
  · intro p hp
    have hsrc : ∀ g ∈ missing, sp ++ g ≠ p := by
      intro g hg hcon
      rw [← hcon] at hp
      rcases prefix_append_cases tp sp g hp with h | h
      · exact h2 h
      · exact h1 h
    have hdst : ∀ g ∈ missing,
        (sp ++ [d, "missing_in_target"]) ++ [ (sp ++ g).getLastD "" ] ≠ p := by
      intro g hg hcon
      rw [← hcon, List.append_assoc] at hp
      rcases prefix_append_cases tp sp _ hp with h | h
      · exact h2 h
      · exact h1 h
    rw [moveLoop_files_iff sp (sp ++ [d, "missing_in_target"]) mf p missing
      (mkdirParents (mkdirParents fs (sp ++ [d, "missing_in_target"]))
        (tp ++ [d, "extra_in_target"])) hsrc hdst]
    exact Iff.rfl
  · rw [moveLoop_dirs]
    exact self_mem_mkdirParents_dirs
      (mkdirParents fs (sp ++ [d, "missing_in_target"]))
      (tp ++ [d, "extra_in_target"]) (by simp)

/-- C3 witness: the amended statement at the spec's concrete scenario
(`RELOCATE("archive")` with `missing = [x.raw]`, empty extra). -/
theorem claim3_witness :
    (Event.moved ([ "src" ] ++ [ "x.raw" ])
        ([ "src" ] ++ [ "archive", "missing_in_target" ]
          ++ [ ([ "src" ] ++ [ "x.raw" ]).getLastD "" ])
      ∈ (handle_unpaired_files ⟨{[ "src", "x.raw" ]}, ∅⟩ [ "src" ] [ "tgt" ]
          [ [ "x.raw" ] ] [] Action.move (some "archive") true
          (fun _ _ => false) (fun _ => false)).2)
    ∧ (([ "tgt", "q" ] ∈ (handle_unpaired_files ⟨{[ "src", "x.raw" ]}, ∅⟩
          [ "src" ] [ "tgt" ] [ [ "x.raw" ] ] [] Action.move (some "archive") true
          (fun _ _ => false) (fun _ => false)).1.files)
        ↔ [ "tgt", "q" ] ∈ (⟨{[ "src", "x.raw" ]}, ∅⟩ : FS).files)
    ∧ [ "tgt" ] ++ [ "archive", "extra_in_target" ]
        ∈ (handle_unpaired_files ⟨{[ "src", "x.raw" ]}, ∅⟩ [ "src" ] [ "tgt" ]
            [ [ "x.raw" ] ] [] Action.move (some "archive") true
            (fun _ _ => false) (fun _ => false)).1.dirs := by
  have h := claim3_theorem ⟨{[ "src", "x.raw" ]}, ∅⟩ [ "src" ] [ "tgt" ] "archive"
    [ [ "x.raw" ] ] true (fun _ _ => false) (fun _ => false)
    (by decide) (fun a b => rfl) (by decide) (by decide)
  exact ⟨h.1 [ "x.raw" ] (by simp) (by decide),
    h.2.1 [ "tgt", "q" ] ⟨[ "q" ], rfl⟩, h.2.2⟩

end FolderCompare
